import Mathlib

/-!
Shallow embedding of the VerifyThisJS validation engine and the
weighted-probability selector of NumFunJS.

Sources embedded here:
* VerifyThis.string / VerifyThis.number / VerifyThis.array
  (src/verify_this.js, class VerifyThis)
* Random.intBetween / Random.floatBetween (src/verify_this.js, class Random)
* execProb (src/verify_this.js, the PROBABILITY section)

Modelling decisions:
* JavaScript numbers are modelled by JSNum: either NaN or an exact rational.
  Every comparison involving NaN is false, matching IEEE-754 comparison
  semantics as used by the JS relational operators; arithmetic propagates NaN.
  Positive and negative infinity are not modelled: no claim exercises them,
  and every operation under verification stays finite on finite inputs.
  JS has a negative zero with -0 === 0; the rationals collapse the two, which
  is observationally equivalent for every check in the sources (truthiness of
  -0 and of 0 agree, as do all comparisons).
* JS values passed to the validators are modelled by JSValue, with the
  typeof tags used by the sources ("string", "number", "boolean",
  "undefined", "object" for arrays).
* A thrown exception is an Except.error carrying a VErr constructor that
  records the throw site and the data its message interpolates.
* Math.random() output is passed in as an explicit rational parameter u with
  0 <= u < 1; the draw of execProb is likewise passed as a parameter.
-/

inductive JSNum where
  | nan
  | num (q : ℚ)
deriving DecidableEq, Repr

/-- Truthiness of a JS number: 0 and NaN are falsy, everything else truthy. -/
def jsTruthy : JSNum → Bool
  | .nan => false
  | .num q => decide (q ≠ 0)

/-- Strict equality test against the literal 0 (NaN === 0 is false). -/
def strictEq0 : JSNum → Bool
  | .nan => false
  | .num q => decide (q = 0)

/-- JS `<` on numbers: any comparison with NaN is false. -/
def jlt : JSNum → JSNum → Bool
  | .num a, .num b => decide (a < b)
  | _, _ => false

/-- JS `>` on numbers: any comparison with NaN is false. -/
def jgt : JSNum → JSNum → Bool
  | .num a, .num b => decide (b < a)
  | _, _ => false

/-- JS `<=` on numbers: any comparison with NaN is false. -/
def jle : JSNum → JSNum → Bool
  | .num a, .num b => decide (a ≤ b)
  | _, _ => false

/-- JS `===` on numbers: NaN === NaN is false. -/
def jstrictEq : JSNum → JSNum → Bool
  | .num a, .num b => decide (a = b)
  | _, _ => false

/-- SameValueZero equality, used by Array.prototype.includes: NaN matches NaN. -/
def svzEq : JSNum → JSNum → Bool
  | .nan, .nan => true
  | .num a, .num b => decide (a = b)
  | _, _ => false

def jadd : JSNum → JSNum → JSNum
  | .num a, .num b => .num (a + b)
  | _, _ => .nan

def jsub : JSNum → JSNum → JSNum
  | .num a, .num b => .num (a - b)
  | _, _ => .nan

def jmul : JSNum → JSNum → JSNum
  | .num a, .num b => .num (a * b)
  | _, _ => .nan

/-- JS division. Division by zero yields an infinity in JS, which is outside
this model; the only division performed by the embedded sources divides by a
positive power of ten, so the zero-divisor branch is unreachable there. -/
def jdiv : JSNum → JSNum → JSNum
  | .num a, .num b => if b = 0 then .nan else .num (a / b)
  | _, _ => .nan

/-- Math.floor: NaN floors to NaN. -/
def jfloor : JSNum → JSNum
  | .nan => .nan
  | .num q => .num (⌊q⌋ : ℚ)

inductive JSValue where
  | vstr (s : String)
  | vnum (n : JSNum)
  | vbool (b : Bool)
  | vundef
  | varr (elems : List JSValue)

/-- The typeof operator restricted to the modelled values
(JS arrays have typeof "object"). -/
def typeofTag : JSValue → String
  | .vstr _ => "string"
  | .vnum _ => "number"
  | .vbool _ => "boolean"
  | .vundef => "undefined"
  | .varr _ => "object"

/-- All throw sites of the embedded sources, with the data their messages
interpolate. The referenceError constructor models a strict-mode
ReferenceError raised while evaluating a template literal that names an
undeclared identifier (see VerifyThis.number below). -/
inductive VErr where
  | strTypeErr
  | strEmpty (aliasStr : String)
  | strBelowMin (aliasStr : String)
  | strAboveMax (aliasStr : String)
  | strNotAllowed (allowed : List String)
  | numTypeErr
  | numNotAllowed (allowedNumsAlias : String)
  | referenceError (ident : String)
  | numAboveMax (aliasStr : String)
  | arrTypeErr
  | arrEmpty
  | arrElemType (index : ℕ) (arrayOf : List String)
  | arrBelowMin
  | arrAboveMax
  | minEqMax
  | minGtMax
  | probMissingEl (index : ℕ)
  | probMissingProb (index : ℕ)
  | probSumTooHigh
deriving DecidableEq, Repr

/-- Rules for VerifyThis.string, with the default values of the source's
destructured parameter. A field holding none models the caller omitting the
key, so the JS default null (or the default list) is taken. -/
structure StringRules where
  canEmpty : Bool := false
  minChars : Option JSNum := none
  maxChars : Option JSNum := none
  aliasStr : String := "String"
  allowedChars : List String := []

/-- Guard of the source line: if (!canEmpty && !str) — an empty string is the
only falsy string. -/
def strEmptyFails (s : String) (r : StringRules) : Bool :=
  !r.canEmpty && s.isEmpty

/-- Guard of the source line: if (minChars && str.length < minChars) — a null
(unset) or zero or NaN minChars is falsy, hence skipped. -/
def strMinFails (s : String) (r : StringRules) : Bool :=
  match r.minChars with
  | some m => jsTruthy m && jlt (.num (s.length : ℚ)) m
  | none => false

/-- Guard of the source line: if (maxChars && str.length > maxChars). -/
def strMaxFails (s : String) (r : StringRules) : Bool :=
  match r.maxChars with
  | some m => jsTruthy m && jgt (.num (s.length : ℚ)) m
  | none => false

/-- Guard of the source line:
if (maxChars === 1 && !allowedChars.includes(str)). -/
def strAllowFails (s : String) (r : StringRules) : Bool :=
  decide (r.maxChars = some (.num 1)) && !(r.allowedChars.contains s)

/-- VerifyThis.string from src/verify_this.js. The instanceof String
disjunct of the type check concerns boxed String objects, which are not
modelled; primitive strings satisfy typeof str === "string". -/
def VerifyThis.string (v : JSValue) (r : StringRules) : Except VErr Unit :=
  match v with
  | .vstr s =>
    if strEmptyFails s r then .error (.strEmpty r.aliasStr)
    else if strMinFails s r then .error (.strBelowMin r.aliasStr)
    else if strMaxFails s r then .error (.strAboveMax r.aliasStr)
    else if strAllowFails s r then .error (.strNotAllowed r.allowedChars)
    else .ok ()
  | _ => .error .strTypeErr

/-- Rules for VerifyThis.number, with the source's default values. -/
structure NumberRules where
  min : Option JSNum := none
  maxValue : Option JSNum := none
  aliasStr : String := "Number"
  allowedNums : List JSNum := []
  allowedNumsAlias : String := "number"

/-- Guard of the source line:
if (allowedNums.length > 0 && !allowedNums.includes(num)) — includes uses
SameValueZero equality. -/
def numAllowedFails (n : JSNum) (r : NumberRules) : Bool :=
  decide (r.allowedNums.length > 0) && !(r.allowedNums.any (svzEq · n))

/-- Guard of the source line: if ((min || min === 0) && num < min) — a set
minimum of zero is enforced via the min === 0 disjunct; null is falsy. -/
def numMinFires (n : JSNum) (r : NumberRules) : Bool :=
  match r.min with
  | some m => (jsTruthy m || strictEq0 m) && jlt n m
  | none => false

/-- Guard of the source line: if (maxValue && num > maxValue) — a maxValue of
zero (or NaN, or null) is falsy, hence treated as unset. -/
def numMaxFires (n : JSNum) (r : NumberRules) : Bool :=
  match r.maxValue with
  | some m => jsTruthy m && jgt n m
  | none => false

/-- VerifyThis.number from src/verify_this.js. The throw at the min check
reads, in the source:
  throw new RangeError(interpolating alias and minValue)
but no variable named minValue is in scope there (the parameter is named
min), so in strict mode (the file is an ES module) evaluating that template
literal raises ReferenceError naming minValue before the RangeError is ever
constructed. The model records this throw as referenceError "minValue". -/
def VerifyThis.number (v : JSValue) (r : NumberRules) : Except VErr Unit :=
  match v with
  | .vnum n =>
    if numAllowedFails n r then .error (.numNotAllowed r.allowedNumsAlias)
    else if numMinFires n r then .error (.referenceError "minValue")
    else if numMaxFires n r then .error (.numAboveMax r.aliasStr)
    else .ok ()
  | _ => .error .numTypeErr

/-- Rules for VerifyThis.array, with the source's default values. -/
structure ArrayRules where
  canEmpty : Bool := false
  minElements : Option JSNum := none
  maxElements : Option JSNum := none
  arrayOf : List String := []

/-- Array.prototype.findIndex, with none standing for the JS result -1:
the index of the first element satisfying the predicate, scanning in order. -/
def findIndexO {α : Type} (p : α → Bool) : List α → Option ℕ
  | [] => none
  | x :: xs => if p x then some 0 else (findIndexO p xs).map (· + 1)

/-- Guard of the source line: if (minElements && arr.length < minElements). -/
def arrMinFails (a : List JSValue) (r : ArrayRules) : Bool :=
  match r.minElements with
  | some m => jsTruthy m && jlt (.num (a.length : ℚ)) m
  | none => false

/-- Guard of the source line: if (maxElements && arr.length > maxElements). -/
def arrMaxFails (a : List JSValue) (r : ArrayRules) : Bool :=
  match r.maxElements with
  | some m => jsTruthy m && jgt (.num (a.length : ℚ)) m
  | none => false

/-- Guard of the source line: if (!canEmpty && arr.length < 1). -/
def arrEmptyFails (a : List JSValue) (r : ArrayRules) : Bool :=
  !r.canEmpty && decide (a.length < 1)

/-- The findIndex scan of the arrayOf block, which runs only when
arrayOf.length > 0: the index of the first element whose typeof is not
included in arrayOf (none when no element offends or the block is skipped). -/
def arrScan (a : List JSValue) (r : ArrayRules) : Option ℕ :=
  if decide (r.arrayOf.length > 0) then
    findIndexO (fun e => !(r.arrayOf.contains (typeofTag e))) a
  else none

/-- VerifyThis.array from src/verify_this.js. The arrayOf scan throws on the
first element whose typeof is not included in arrayOf, naming that
element's index. -/
def VerifyThis.array (v : JSValue) (r : ArrayRules) : Except VErr Unit :=
  match v with
  | .varr a =>
    if arrEmptyFails a r then .error .arrEmpty
    else
      match arrScan a r with
      | some i => .error (.arrElemType i r.arrayOf)
      | none =>
        if arrMinFails a r then .error .arrBelowMin
        else if arrMaxFails a r then .error .arrAboveMax
        else .ok ()
  | _ => .error .arrTypeErr

/-- Random.intBetween from src/verify_this.js, with the Math.random() output
passed in as the rational u (0 <= u < 1 for genuine outputs):
Math.floor(Math.random() * (max - min + 1)) + min after validating both
bounds and rejecting min === max and min > max. -/
def Random.intBetween (mn mx : JSNum) (u : ℚ) : Except VErr JSNum := do
  _ ← VerifyThis.number (.vnum mn) {aliasStr := "Minimun value"}
  _ ← VerifyThis.number (.vnum mx) {aliasStr := "Maximun value"}
  if jstrictEq mn mx then .error .minEqMax
  else if jgt mn mx then .error .minGtMax
  else .ok (jadd (jfloor (jmul (.num u) (jadd (jsub mx mn) (.num 1)))) mn)

/-- Random.floatBetween from src/verify_this.js. The decimals parameter
defaults to 1 at the source; it is modelled as a natural number because every
call in the repository passes a (defaulted) integer literal, and the source
scales by Math.pow(10, decimals). The final toFixed(decimals) followed by
Number(...) is the identity on the exact value k / 10 ^ decimals produced by
the division of the integer k returned by intBetween, so it is not modelled
separately (float rounding is outside this embedding). -/
def Random.floatBetween (mn mx : JSNum) (decimals : ℕ := 1) (u : ℚ := 0) :
    Except VErr JSNum := do
  _ ← VerifyThis.number (.vnum mn) {aliasStr := "Minimum value"}
  _ ← VerifyThis.number (.vnum mx) {aliasStr := "Maximum value"}
  _ ← VerifyThis.number (.vnum (.num (decimals : ℚ)))
        {aliasStr := "Number of decimals", min := some (.num 1)}
  if jstrictEq mn mx then .error .minEqMax
  else if jgt mn mx then .error .minGtMax
  else do
    let k ← Random.intBetween (jmul mn (.num ((10 : ℚ) ^ decimals)))
              (jmul mx (.num ((10 : ℚ) ^ decimals))) u
    .ok (jdiv k (.num ((10 : ℚ) ^ decimals)))

/-- One entry of the array consumed by execProb. A field holding none models
an object without that own property (hasOwnProperty false); the spec calls
el the item and prob the weight. -/
structure ProbInfo where
  el : Option JSValue := none
  prob : Option JSNum := none

/-- The checkPercent accumulation loop of execProb: checkPercent starts at 0
and adds every entry's prob. Destructuring a missing prob would yield
undefined, and number + undefined is NaN, which getD .nan reproduces (the
loop is only reached once every prob is present). -/
def sumProbs (arr : List ProbInfo) : JSNum :=
  arr.foldl (fun acc e => jadd acc (e.prob.getD .nan)) (.num 0)

/-- The selection loop of execProb: currentProb accumulates each entry's
prob and the first entry with num <= currentProb is returned; falling off
the end returns undefined, modelled as none. -/
def probWalk : List ProbInfo → JSNum → JSNum → Option JSValue
  | [], _, _ => none
  | e :: rest, r, cur =>
    let cur' := jadd cur (e.prob.getD .nan)
    if jle r cur' then some (e.el.getD .vundef) else probWalk rest r cur'

/-- execProb from src/verify_this.js. The draw r stands for the value of
Random.floatBetween(0, 100) computed at the draw line; it is passed as a
parameter because the random source is external (floatBetween on these
arguments never throws, as proved below). The two findIndex passes over
hasOwnProperty are checked in source order: a missing el is reported before
a missing prob. -/
def execProb (arr : List ProbInfo) (r : JSNum) : Except VErr (Option JSValue) :=
  match findIndexO (fun e => e.el.isNone) arr with
  | some i => .error (.probMissingEl i)
  | none =>
    match findIndexO (fun e => e.prob.isNone) arr with
    | some j => .error (.probMissingProb j)
    | none =>
      if jgt (sumProbs arr) (.num 100) then .error .probSumTooHigh
      else .ok (probWalk arr r (.num 0))

/-- Spec-side weighted entry: an item paired with a rational weight, both
fields present. Used to compare execProb against the wording of the spec. -/
def toProbInfo (p : JSValue × ℚ) : ProbInfo :=
  { el := some p.1, prob := some (.num p.2) }

/-- Modelled from the spec: the sum of all weights of a WeightedEntry list
(spec section 4.2 step 2). -/
def specSumW (entries : List (JSValue × ℚ)) : ℚ :=
  (entries.map fun p => p.2).sum

/-- Modelled from the spec: the cumulative-weight walk of section 4.2 step 4,
walking entries in the order given, accumulating cumulative += weight, and
returning the first entry whose cumulative total is >= r. -/
def specSelectGo : List (JSValue × ℚ) → ℚ → ℚ → Option JSValue
  | [], _, _ => none
  | (item, w) :: rest, r, cumulative =>
    if r ≤ cumulative + w then some item else specSelectGo rest r (cumulative + w)

/-- Modelled from the spec: the selection outcome for a draw r, starting the
cumulative total at zero; none is the NoSelection outcome. -/
def specSelect (entries : List (JSValue × ℚ)) (r : ℚ) : Option JSValue :=
  specSelectGo entries r 0

/-! Helper lemmas about the embedded primitives. -/

theorem jlt_nan_left (m : JSNum) : jlt .nan m = false := by cases m <;> rfl

theorem jlt_nan_right (n : JSNum) : jlt n .nan = false := by cases n <;> rfl

theorem jgt_nan_left (m : JSNum) : jgt .nan m = false := by cases m <;> rfl

theorem findIndexO_eq_none {α : Type} (p : α → Bool) (l : List α)
    (h : ∀ x ∈ l, p x = false) : findIndexO p l = none := by
  induction l with
  | nil => rfl
  | cons x xs ih =>
    simp [findIndexO, h x (List.mem_cons_self x xs),
      ih (fun y hy => h y (List.mem_cons_of_mem x hy))]

theorem findIndexO_exists {α : Type} (p : α → Bool) (l : List α)
    (h : ∃ x ∈ l, p x = true) : ∃ i, findIndexO p l = some i := by
  induction l with
  | nil => simp at h
  | cons x xs ih =>
    by_cases hx : p x = true
    · exact ⟨0, by simp [findIndexO, hx]⟩
    · obtain ⟨y, hy, hpy⟩ := h
      rcases List.mem_cons.mp hy with hyx | hyxs
      · exact absurd (hyx ▸ hpy) hx
      · obtain ⟨i, hi⟩ := ih ⟨y, hyxs, hpy⟩
        exact ⟨i + 1, by simp [findIndexO, hx, hi]⟩

theorem findIndexO_some_spec {α : Type} (p : α → Bool) (l : List α) (i : ℕ)
    (d : α) (h : findIndexO p l = some i) :
    i < l.length ∧ p (l.getD i d) = true := by
  induction l generalizing i with
  | nil => simp [findIndexO] at h
  | cons x xs ih =>
    by_cases hx : p x = true
    · simp [findIndexO, hx] at h
      subst h
      simpa using hx
    · simp [findIndexO, hx] at h
      obtain ⟨j, hj, hij⟩ := h
      obtain ⟨hlen, hp⟩ := ih j hj
      subst hij
      exact ⟨by simpa using hlen, by simpa using hp⟩

theorem findIndexO_first {α : Type} (p : α → Bool) (l : List α) (i : ℕ)
    (d : α) (hi : i < l.length) (hp : p (l.getD i d) = true)
    (hfirst : ∀ j, j < i → p (l.getD j d) = false) :
    findIndexO p l = some i := by
  induction l generalizing i with
  | nil => simp at hi
  | cons x xs ih =>
    cases i with
    | zero => simpa [findIndexO] using hp
    | succ n =>
      have hx : p x = false := hfirst 0 (Nat.succ_pos n)
      have := ih n (by simpa using hi) (by simpa using hp)
        (fun j hj => by simpa using hfirst (j + 1) (by omega))
      simp [findIndexO, hx, this]

theorem sumProbs_map_aux (entries : List (JSValue × ℚ)) (c : ℚ) :
    (entries.map toProbInfo).foldl (fun acc e => jadd acc (e.prob.getD .nan))
      (.num c) = .num (c + specSumW entries) := by
  induction entries generalizing c with
  | nil => simp [specSumW]
  | cons p ps ih =>
    have hstep : jadd (.num c) ((toProbInfo p).prob.getD .nan) = .num (c + p.2) := rfl
    simp only [List.map_cons, List.foldl_cons, hstep]
    rw [ih (c + p.2)]
    simp [specSumW, add_assoc]

theorem sumProbs_map (entries : List (JSValue × ℚ)) :
    sumProbs (entries.map toProbInfo) = .num (specSumW entries) := by
  simpa using sumProbs_map_aux entries 0

theorem probWalk_map (entries : List (JSValue × ℚ)) (r c : ℚ) :
    probWalk (entries.map toProbInfo) (.num r) (.num c) = specSelectGo entries r c := by
  induction entries generalizing c with
  | nil => rfl
  | cons p ps ih =>
    obtain ⟨item, w⟩ := p
    simp only [List.map_cons, probWalk, toProbInfo, Option.getD_some, jadd, jle,
      specSelectGo, decide_eq_true_eq]
    by_cases h : r ≤ c + w <;> simp [h, ih]

theorem execProb_wf (arr : List ProbInfo) (r : JSNum)
    (h1 : ∀ e ∈ arr, e.el.isSome = true) (h2 : ∀ e ∈ arr, e.prob.isSome = true) :
    execProb arr r =
      if jgt (sumProbs arr) (.num 100) then .error .probSumTooHigh
      else .ok (probWalk arr r (.num 0)) := by
  have hel : findIndexO (fun e => e.el.isNone) arr = none :=
    findIndexO_eq_none _ _ (fun x hx => by
      have := h1 x hx
      simp [Option.isNone]
      cases hx2 : x.el with
      | none => rw [hx2] at this; simp at this
      | some v => rfl)
  have hprob : findIndexO (fun e => e.prob.isNone) arr = none :=
    findIndexO_eq_none _ _ (fun x hx => by
      have := h2 x hx
      simp [Option.isNone]
      cases hx2 : x.prob with
      | none => rw [hx2] at this; simp at this
      | some v => rfl)
  simp [execProb, hel, hprob]

theorem execProb_map_eq (entries : List (JSValue × ℚ)) (r : ℚ)
    (h : specSumW entries ≤ 100) :
    execProb (entries.map toProbInfo) (.num r) = .ok (specSelect entries r) := by
  rw [execProb_wf _ _ (fun e he => by
        obtain ⟨p, _, hp⟩ := List.mem_map.mp he
        rw [← hp]; rfl)
      (fun e he => by
        obtain ⟨p, _, hp⟩ := List.mem_map.mp he
        rw [← hp]; rfl)]
  rw [sumProbs_map]
  have hgt : jgt (.num (specSumW entries)) (.num 100) = false := by
    simp [jgt]
    linarith
  rw [hgt]
  simp [specSelect, probWalk_map]

theorem specSelectGo_none (entries : List (JSValue × ℚ)) (r c : ℚ)
    (hnn : ∀ p ∈ entries, 0 ≤ p.2) (h : c + specSumW entries < r) :
    specSelectGo entries r c = none := by
  induction entries generalizing c with
  | nil => rfl
  | cons p ps ih =>
    obtain ⟨item, w⟩ := p
    have hsum : specSumW ((item, w) :: ps) = w + specSumW ps := by
      simp [specSumW]
    have hps : 0 ≤ specSumW ps :=
      List.sum_nonneg (fun x hx => by
        obtain ⟨q, hq, hqx⟩ := List.mem_map.mp hx
        exact hqx ▸ hnn q (List.mem_cons_of_mem _ hq))
    have hnotle : ¬(r ≤ c + w) := by
      rw [hsum] at h
      push_neg
      linarith
    simp only [specSelectGo, if_neg hnotle]
    exact ih (c + w) (fun q hq => hnn q (List.mem_cons_of_mem _ hq))
      (by rw [hsum] at h; linarith)

/-! Claim theorems. -/

/-- Claim C1 (code_bug exhibit). The guard of the min check fires exactly as
the claim states: a min set to 0 is enforced, validateNumber(5, with min 0)
succeeds and validateNumber(-1, with min 0) fails, and in general a set min
with value < min makes the call fail. But the failure is not a BelowMinimum
error: the message of the RangeError at that throw site interpolates the
undeclared identifier minValue, so the call raises
ReferenceError naming minValue instead. -/
theorem number_min_check_reference_error :
    VerifyThis.number (.vnum (.num 5)) {min := some (.num 0)} = .ok ()
    ∧ VerifyThis.number (.vnum (.num (-1))) {min := some (.num 0)}
        = .error (.referenceError "minValue")
    ∧ (∀ (n m : JSNum) (r : NumberRules), r.min = some m →
        numAllowedFails n r = false → jlt n m = true →
        VerifyThis.number (.vnum n) r = .error (.referenceError "minValue")) := by
  refine ⟨rfl, rfl, ?_⟩
  intro n m r hmin hall hlt
  have hfire : numMinFires n r = true := by
    cases m with
    | nan => rw [jlt_nan_right] at hlt; exact absurd hlt (by simp)
    | num q =>
      by_cases hq : q = 0
      · subst hq
        simp [numMinFires, hmin, jsTruthy, strictEq0, hlt]
      · simp [numMinFires, hmin, jsTruthy, strictEq0, hq, hlt]
  simp [VerifyThis.number, hall, hfire]

/-- Witness for the general part of C1: min set to 2, value 1, failure is
the ReferenceError of the min-check throw site. -/
theorem number_min_check_reference_error_witness :
    VerifyThis.number (.vnum (.num 1)) {min := some (.num 2)}
      = .error (.referenceError "minValue") :=
  number_min_check_reference_error.2.2 (.num 1) (.num 2)
    {min := some (.num 2)} rfl rfl rfl

/-- Claim C10: validateNumber accepts NaN for every combination of min and
maxValue (with the default empty allowedNums): NaN passes the typeof number
test and every ordered comparison against min or maxValue is false. -/
theorem number_accepts_nan :
    ∀ (mn mx : Option JSNum),
      VerifyThis.number (.vnum .nan) {min := mn, maxValue := mx} = .ok () := by
  intro mn mx
  have h1 : numAllowedFails .nan {min := mn, maxValue := mx} = false := rfl
  have h2 : numMinFires .nan {min := mn, maxValue := mx} = false := by
    cases mn with
    | none => rfl
    | some m => simp [numMinFires, jlt_nan_left]
  have h3 : numMaxFires .nan {min := mn, maxValue := mx} = false := by
    cases mx with
    | none => rfl
    | some m => simp [numMaxFires, jgt_nan_left]
  simp [VerifyThis.number, h1, h2, h3]

/-- Counterexample to claim C8 as stated: maxValue set to the value 0 is not
enforced, because the guard tests the truthiness of maxValue and 0 is falsy;
validateNumber(5, with maxValue 0) succeeds instead of failing with
AboveMaximum. -/
theorem number_maxValue_zero_ignored :
    VerifyThis.number (.vnum (.num 5)) {maxValue := some (.num 0)} = .ok () := rfl

/-- Claim C8 as amended: if maxValue is set to a truthy value (nonzero and
not NaN; zero is treated as unset) and the value is strictly greater than
maxValue, passing the earlier type, allowed-numbers and min checks,
validateNumber fails with AboveMaximum. -/
theorem number_maxValue_above_maximum :
    ∀ (n m : JSNum) (r : NumberRules), r.maxValue = some m →
      jsTruthy m = true → numAllowedFails n r = false →
      numMinFires n r = false → jgt n m = true →
      VerifyThis.number (.vnum n) r = .error (.numAboveMax r.aliasStr) := by
  intro n m r hmax htr hall hmin hgt
  simp [VerifyThis.number, hall, hmin, numMaxFires, hmax, htr, hgt]

/-- Witness for C8 as amended: maxValue 1, value 5. -/
theorem number_maxValue_above_maximum_witness :
    VerifyThis.number (.vnum (.num 5)) {maxValue := some (.num 1)}
      = .error (.numAboveMax "Number") :=
  number_maxValue_above_maximum (.num 5) (.num 1)
    {maxValue := some (.num 1)} rfl rfl rfl rfl rfl

/-- Counterexample to claim C6 as stated: a string whose length equals
maxChars does not always pass. With maxChars = 1 the allow-list check then
fires, and the default allowedChars is empty, so validateString of the
one-character string fails with NotAllowed. -/
theorem string_equal_length_not_allowed :
    VerifyThis.string (.vstr "a") {maxChars := some (.num 1)}
      = .error (.strNotAllowed []) := rfl

/-- Claim C6 as amended: with maxChars set to a truthy (nonzero) value and
the earlier checks passing (type, emptiness, minChars), a string strictly
longer than maxChars fails with AboveMaximum, and a string whose length
equals maxChars never fails with AboveMaximum (it may still fail the
allow-list check when maxChars is 1, and maxChars set to 0 is treated as
unset). -/
theorem string_maxChars_above_maximum :
    ∀ (s : String) (r : StringRules) (m : JSNum), r.maxChars = some m →
      jsTruthy m = true → strEmptyFails s r = false → strMinFails s r = false →
      ((jgt (.num (s.length : ℚ)) m = true →
          VerifyThis.string (.vstr s) r = .error (.strAboveMax r.aliasStr))
       ∧ ((.num (s.length : ℚ)) = m →
          ∀ a, VerifyThis.string (.vstr s) r ≠ .error (.strAboveMax a))) := by
  intro s r m hmax htr hempty hmin
  constructor
  · intro hgt
    simp [VerifyThis.string, hempty, hmin, strMaxFails, hmax, htr, hgt]
  · intro hlen a
    have hmaxfail : strMaxFails s r = false := by
      simp [strMaxFails, hmax, ← hlen, jgt]
    simp only [VerifyThis.string, hempty, hmin, hmaxfail, Bool.false_eq_true,
      if_false]
    split <;> simp

/-- Witness for C6 as amended: with maxChars 2, the three-character string
fails with AboveMaximum and the two-character string never does. -/
theorem string_maxChars_above_maximum_witness :
    VerifyThis.string (.vstr "abc") {maxChars := some (.num 2)}
      = .error (.strAboveMax "String")
    ∧ VerifyThis.string (.vstr "ab") {maxChars := some (.num 2)}
      ≠ .error (.strAboveMax "String") :=
  ⟨(string_maxChars_above_maximum "abc" {maxChars := some (.num 2)}
      (.num 2) rfl rfl rfl rfl).1 (by decide),
   (string_maxChars_above_maximum "ab" {maxChars := some (.num 2)}
      (.num 2) rfl rfl rfl rfl).2 (by decide) "String"⟩

/-- Counterexample to claim C7 as stated: under maxChars = 1, a string of
length 2 that is not in allowedChars does not fail with NotAllowed —
the maxChars length check fires first and the call fails with AboveMaximum,
so the allow-list verdict is not independent of the length of the string. -/
theorem string_allowlist_skipped_for_long_value :
    VerifyThis.string (.vstr "xy") {maxChars := some (.num 1), allowedChars := ["a", "b"]}
      = .error (.strAboveMax "String") := rfl

/-- Claim C7 as amended: the allow-list check fires exactly when maxChars is
strictly equal to 1 and the value passes the earlier checks; any such value
not in allowedChars fails with NotAllowed. The trigger itself ignores the
length of the value — the empty string under canEmpty reaches it — but a
string longer than 1 fails with AboveMaximum before the allow-list is
consulted. When maxChars is unset or differs from 1, the outcome never
depends on allowedChars. -/
theorem string_allowlist_trigger :
    (∀ (s : String) (r : StringRules), r.maxChars = some (.num 1) →
        strEmptyFails s r = false → strMinFails s r = false →
        strMaxFails s r = false → r.allowedChars.contains s = false →
        VerifyThis.string (.vstr s) r = .error (.strNotAllowed r.allowedChars))
    ∧ (∀ (s : String) (r : StringRules) (ac1 ac2 : List String),
        r.maxChars ≠ some (.num 1) →
        VerifyThis.string (.vstr s) {r with allowedChars := ac1}
          = VerifyThis.string (.vstr s) {r with allowedChars := ac2})
    ∧ VerifyThis.string (.vstr "")
        {canEmpty := true, maxChars := some (.num 1), allowedChars := ["a", "b"]}
        = .error (.strNotAllowed ["a", "b"])
    ∧ VerifyThis.string (.vstr "a") {maxChars := some (.num 1), allowedChars := ["a", "b"]}
        = .ok () := by
  refine ⟨?_, ?_, rfl, rfl⟩
  · intro s r hmax hempty hmin hmaxf hcont
    have hmem : s ∉ r.allowedChars := by simpa using hcont
    simp [VerifyThis.string, hempty, hmin, hmaxf, strAllowFails, hmax, hmem]
  · intro s r ac1 ac2 hne
    have hallow : ∀ ac, strAllowFails s {r with allowedChars := ac} = false := by
      intro ac
      simp [strAllowFails, hne]
    simp only [VerifyThis.string]
    rw [show strEmptyFails s {r with allowedChars := ac1}
          = strEmptyFails s {r with allowedChars := ac2} from rfl,
        show strMinFails s {r with allowedChars := ac1}
          = strMinFails s {r with allowedChars := ac2} from rfl,
        show strMaxFails s {r with allowedChars := ac1}
          = strMaxFails s {r with allowedChars := ac2} from rfl,
        hallow ac1, hallow ac2]
    simp

/-- Witness for C7 as amended: the single character x is not in the allow
list under maxChars = 1, so the call fails with NotAllowed. -/
theorem string_allowlist_trigger_witness :
    VerifyThis.string (.vstr "x") {maxChars := some (.num 1), allowedChars := ["a", "b"]}
      = .error (.strNotAllowed ["a", "b"]) :=
  string_allowlist_trigger.1 "x"
    {maxChars := some (.num 1), allowedChars := ["a", "b"]} rfl rfl rfl rfl (by decide)

/-- Claim C9: for every non-empty array and non-empty arrayOf tag set,
validateArray scans elements in order and, at the first element whose
runtime type is not in arrayOf, fails with TypeMismatch naming that
element's 0-based index and the allowed type set; if every element's type is
in arrayOf, this check never fires. In particular, validating the number
pair against arrayOf number succeeds, and validating a number followed by a
string against arrayOf number fails naming index 1. -/
theorem array_arrayOf_first_mismatch :
    (∀ (a : List JSValue) (r : ArrayRules), r.arrayOf ≠ [] → a ≠ [] →
        ((∀ i, i < a.length →
            r.arrayOf.contains (typeofTag (a.getD i .vundef)) = false →
            (∀ j, j < i → r.arrayOf.contains (typeofTag (a.getD j .vundef)) = true) →
            VerifyThis.array (.varr a) r = .error (.arrElemType i r.arrayOf))
         ∧ ((∀ e ∈ a, r.arrayOf.contains (typeofTag e) = true) →
            ∀ i ts, VerifyThis.array (.varr a) r ≠ .error (.arrElemType i ts))))
    ∧ VerifyThis.array (.varr [.vnum (.num 1), .vnum (.num 2)]) {arrayOf := ["number"]}
        = .ok ()
    ∧ VerifyThis.array (.varr [.vnum (.num 1), .vstr "x"]) {arrayOf := ["number"]}
        = .error (.arrElemType 1 ["number"]) := by
  refine ⟨?_, rfl, rfl⟩
  intro a r harr hne
  have hlen : a.length < 1 → False := by
    cases a with
    | nil => exact absurd rfl hne
    | cons x xs => simp
  have hempty : arrEmptyFails a r = false := by
    have h : decide (a.length < 1) = false := decide_eq_false hlen
    simp [arrEmptyFails, h]
  have harrlen : decide (r.arrayOf.length > 0) = true := by
    cases hoa : r.arrayOf with
    | nil => exact absurd hoa harr
    | cons t ts => simp
  constructor
  · intro i hi hbad hfirst
    have hfind : findIndexO (fun e => !(r.arrayOf.contains (typeofTag e))) a
        = some i := by
      apply findIndexO_first _ _ _ .vundef hi
      · simp only [hbad, Bool.not_false]
      · intro j hj
        simp only [hfirst j hj, Bool.not_true]
    have hscan : arrScan a r = some i := by
      unfold arrScan
      rw [if_pos harrlen]
      exact hfind
    simp only [VerifyThis.array, hempty, Bool.false_eq_true, if_false, hscan]
  · intro hall i ts
    have hfind : findIndexO (fun e => !(r.arrayOf.contains (typeofTag e))) a
        = none := by
      apply findIndexO_eq_none
      intro x hx
      simp only [hall x hx, Bool.not_true]
    have hscan : arrScan a r = none := by
      unfold arrScan
      rw [if_pos harrlen]
      exact hfind
    simp only [VerifyThis.array, hempty, Bool.false_eq_true, if_false, hscan]
    split
    · simp
    · split
      · simp
      · simp

/-- Witness for C9: the general first-mismatch part applied at a concrete
array with a boolean at index 1 under arrayOf string. -/
theorem array_arrayOf_first_mismatch_witness :
    VerifyThis.array (.varr [.vstr "y", .vbool true]) {arrayOf := ["string"]}
      = .error (.arrElemType 1 ["string"]) :=
  (array_arrayOf_first_mismatch.1 [.vstr "y", .vbool true] {arrayOf := ["string"]}
      (by decide) (by simp)).1 1 (by decide) (by decide)
    (fun j hj => by
      have : j = 0 := by omega
      subst this
      decide)

/-- Claim C2: for every entry list with all fields present whose weights sum
to at most 100 and every draw value r, select walks the entries in the order
given accumulating the running weight total and returns the first entry
whose cumulative total is at least r (specSelect states the walk in the
words of the spec); in particular, for the two entries A with weight 60 and
B with weight 40, A is returned for every draw in the closed interval from 0
to 60 and B for every draw strictly between 60 and 100, boundaries won by
the earlier entry. -/
theorem execProb_cumulative_walk :
    (∀ (entries : List (JSValue × ℚ)) (r : ℚ), specSumW entries ≤ 100 →
        execProb (entries.map toProbInfo) (.num r) = .ok (specSelect entries r))
    ∧ (∀ r : ℚ, 0 ≤ r → r ≤ 60 →
        execProb [⟨some (.vstr "A"), some (.num 60)⟩, ⟨some (.vstr "B"), some (.num 40)⟩]
          (.num r) = .ok (some (.vstr "A")))
    ∧ (∀ r : ℚ, 60 < r → r < 100 →
        execProb [⟨some (.vstr "A"), some (.num 60)⟩, ⟨some (.vstr "B"), some (.num 40)⟩]
          (.num r) = .ok (some (.vstr "B"))) := by
  refine ⟨fun entries r h => execProb_map_eq entries r h, ?_, ?_⟩
  · intro r h0 h60
    have h := execProb_map_eq [(.vstr "A", 60), (.vstr "B", 40)] r
      (by norm_num [specSumW])
    rw [show ([((JSValue.vstr "A" : JSValue), (60 : ℚ)),
          ((JSValue.vstr "B" : JSValue), (40 : ℚ))].map toProbInfo)
        = [⟨some (.vstr "A"), some (.num 60)⟩, ⟨some (.vstr "B"), some (.num 40)⟩]
      from rfl] at h
    rw [h]
    norm_num [specSelect, specSelectGo, h60]
  · intro r h60 h100
    have h := execProb_map_eq [(.vstr "A", 60), (.vstr "B", 40)] r
      (by norm_num [specSumW])
    rw [show ([((JSValue.vstr "A" : JSValue), (60 : ℚ)),
          ((JSValue.vstr "B" : JSValue), (40 : ℚ))].map toProbInfo)
        = [⟨some (.vstr "A"), some (.num 60)⟩, ⟨some (.vstr "B"), some (.num 40)⟩]
      from rfl] at h
    rw [h]
    have hnotle : ¬(r ≤ 60) := not_le.mpr h60
    have hle100 : r ≤ 100 := le_of_lt h100
    norm_num [specSelect, specSelectGo, hnotle, hle100]

/-- Witness for C2: the boundary draw 60 selects A and the draw 70 selects
B in the two-entry example. -/
theorem execProb_cumulative_walk_witness :
    execProb [⟨some (.vstr "A"), some (.num 60)⟩, ⟨some (.vstr "B"), some (.num 40)⟩]
        (.num 60) = .ok (some (.vstr "A"))
    ∧ execProb [⟨some (.vstr "A"), some (.num 60)⟩, ⟨some (.vstr "B"), some (.num 40)⟩]
        (.num 70) = .ok (some (.vstr "B")) :=
  ⟨execProb_cumulative_walk.2.1 60 (by norm_num) (by norm_num),
   execProb_cumulative_walk.2.2 70 (by norm_num) (by norm_num)⟩

/-- Claim C4: given every entry has both fields, select fails exactly when
the weight sum exceeds 100, and then with the InvalidConfiguration error
(probSumTooHigh); when the sum does not exceed 100 the call succeeds with
the walk's outcome. For nonnegative weights summing strictly below 100 and
a draw beyond the last cumulative total, the outcome is the no-selection
value rather than a failure. The single entry of weight 150 fails with
InvalidConfiguration. -/
theorem execProb_invalid_config_iff :
    (∀ (arr : List ProbInfo) (r : JSNum),
        (∀ e ∈ arr, e.el.isSome = true) → (∀ e ∈ arr, e.prob.isSome = true) →
        ((execProb arr r = .error .probSumTooHigh
            ↔ jgt (sumProbs arr) (.num 100) = true)
         ∧ (jgt (sumProbs arr) (.num 100) = false →
              execProb arr r = .ok (probWalk arr r (.num 0)))))
    ∧ (∀ (entries : List (JSValue × ℚ)) (r : ℚ), (∀ p ∈ entries, 0 ≤ p.2) →
        specSumW entries < 100 → specSumW entries < r →
        execProb (entries.map toProbInfo) (.num r) = .ok none)
    ∧ execProb [⟨some (.vstr "A"), some (.num 150)⟩] (.num 0)
        = .error .probSumTooHigh := by
  refine ⟨?_, ?_, by norm_num [execProb, findIndexO, sumProbs, jadd, jgt]⟩
  · intro arr r h1 h2
    rw [execProb_wf arr r h1 h2]
    cases hgt : jgt (sumProbs arr) (.num 100) with
    | true => simp
    | false => simp
  · intro entries r hnn hlt hbeyond
    rw [execProb_map_eq entries r (le_of_lt hlt)]
    rw [specSelect, specSelectGo_none entries r 0 hnn (by linarith)]

/-- Witness for C4: one entry of weight 60 and the draw 70 beyond it
produce the no-selection outcome. -/
theorem execProb_invalid_config_iff_witness :
    execProb ([((JSValue.vstr "A" : JSValue), (60 : ℚ))].map toProbInfo) (.num 70)
      = .ok none :=
  execProb_invalid_config_iff.2.1 [(.vstr "A", 60)] 70
    (by norm_num) (by norm_num [specSumW]) (by norm_num [specSumW])

/-- Claim C5: whenever some entry lacks the el field (the item of the spec)
or the prob field (the weight), select fails with the missing-field error
naming an offending index, for every draw value and regardless of the
weight sum — the field check precedes the sum check and the draw. In
particular the single entry with only a weight fails naming index 0, even
when that weight exceeds 100. -/
theorem execProb_missing_field_first :
    (∀ (arr : List ProbInfo) (r : JSNum),
        (∃ e ∈ arr, e.el = none ∨ e.prob = none) →
        ∃ i, i < arr.length ∧
          (((arr.getD i ⟨none, none⟩).el = none
              ∧ execProb arr r = .error (.probMissingEl i))
           ∨ ((arr.getD i ⟨none, none⟩).prob = none
              ∧ execProb arr r = .error (.probMissingProb i))))
    ∧ (∀ r : JSNum, execProb [⟨none, some (.num 10)⟩] r = .error (.probMissingEl 0))
    ∧ (∀ r : JSNum, execProb [⟨none, some (.num 200)⟩] r = .error (.probMissingEl 0)) := by
  refine ⟨?_, fun r => rfl, fun r => rfl⟩
  intro arr r h
  by_cases hel : ∃ e ∈ arr, (fun e => e.el.isNone) e = true
  · obtain ⟨i, hfi⟩ := findIndexO_exists _ arr hel
    obtain ⟨hilen, hp⟩ := findIndexO_some_spec _ arr i ⟨none, none⟩ hfi
    refine ⟨i, hilen, Or.inl ⟨Option.isNone_iff_eq_none.mp hp, ?_⟩⟩
    simp [execProb, hfi]
  · have helnone : findIndexO (fun e => e.el.isNone) arr = none := by
      apply findIndexO_eq_none
      intro x hx
      by_contra hcon
      exact hel ⟨x, hx, by simpa using hcon⟩
    have hprob : ∃ e ∈ arr, (fun e => e.prob.isNone) e = true := by
      obtain ⟨e, he, hcase⟩ := h
      rcases hcase with hc | hc
      · exact absurd ⟨e, he, by simp [hc]⟩ hel
      · exact ⟨e, he, by simp [hc]⟩
    obtain ⟨j, hfj⟩ := findIndexO_exists _ arr hprob
    obtain ⟨hjlen, hp⟩ := findIndexO_some_spec _ arr j ⟨none, none⟩ hfj
    refine ⟨j, hjlen, Or.inr ⟨Option.isNone_iff_eq_none.mp hp, ?_⟩⟩
    simp [execProb, helnone, hfj]

/-- Witness for C5: the general part applied to the single entry lacking el,
with the draw 3. -/
theorem execProb_missing_field_first_witness :
    ∃ i, i < ([⟨none, some (.num 10)⟩] : List ProbInfo).length ∧
      (((([⟨none, some (.num 10)⟩] : List ProbInfo).getD i ⟨none, none⟩).el = none
          ∧ execProb [⟨none, some (.num 10)⟩] (.num 3) = .error (.probMissingEl i))
       ∨ ((([⟨none, some (.num 10)⟩] : List ProbInfo).getD i ⟨none, none⟩).prob = none
          ∧ execProb [⟨none, some (.num 10)⟩] (.num 3) = .error (.probMissingProb i))) :=
  execProb_missing_field_first.1 [⟨none, some (.num 10)⟩] (.num 3)
    ⟨⟨none, some (.num 10)⟩, by simp, Or.inl rfl⟩

/-- Evaluation of the draw used by execProb: floatBetween(0, 100) with the
default one decimal of precision returns the floor of u * 1001 divided by
ten, where u is the Math.random() output. -/
theorem floatBetween_0_100_eval (u : ℚ) :
    Random.floatBetween (.num 0) (.num 100) 1 u
      = .ok (.num ((⌊u * 1001⌋ : ℚ) / 10)) := by
  norm_num [Random.floatBetween, Random.intBetween, VerifyThis.number,
    numAllowedFails, numMinFires, numMaxFires, jsTruthy, strictEq0, jlt, jgt,
    jstrictEq, jmul, jadd, jsub, jfloor, jdiv, Bind.bind, Except.bind]

/-- Counterexample to claim C3 as stated: the draw of select is not strictly
below 100. The Math.random() output 1999/2000 (a genuine value, at least 0
and below 1) makes floatBetween(0, 100) return exactly 100, because the
underlying intBetween is inclusive at both ends. -/
theorem floatBetween_can_return_100 :
    0 ≤ (1999 / 2000 : ℚ) ∧ (1999 / 2000 : ℚ) < 1
    ∧ Random.floatBetween (.num 0) (.num 100) 1 (1999 / 2000) = .ok (.num 100) := by
  refine ⟨by norm_num, by norm_num, ?_⟩
  rw [floatBetween_0_100_eval]
  have hfloor : ⌊(1999 / 2000 * 1001 : ℚ)⌋ = 1000 := by
    rw [Int.floor_eq_iff]
    norm_num
  rw [hfloor]
  norm_num

/-- Claim C3 as amended: for every Math.random() output u with 0 <= u < 1,
floatBetween(0, 100) with its default precision of one decimal place
(decimals defaults to 1, not 2) succeeds and returns a multiple of one
tenth, k / 10 with 0 <= k <= 1000: the draw lies in the closed interval
from 0 to 100, inclusive at both ends. -/
theorem floatBetween_draw_range :
    ∀ u : ℚ, 0 ≤ u → u < 1 →
      ∃ k : ℤ, Random.floatBetween (.num 0) (.num 100) 1 u
          = .ok (.num ((k : ℚ) / 10)) ∧ 0 ≤ k ∧ k ≤ 1000 := by
  intro u h0 h1
  refine ⟨⌊u * 1001⌋, floatBetween_0_100_eval u,
    Int.floor_nonneg.mpr (by positivity), ?_⟩
  have hlt : (u * 1001 : ℚ) < 1001 := by nlinarith
  have hfl : ⌊(u * 1001 : ℚ)⌋ < 1001 := Int.floor_lt.mpr (by exact_mod_cast hlt)
  omega

/-- Witness for C3 as amended: the output 1/2 gives the draw 50. -/
theorem floatBetween_draw_range_witness :
    ∃ k : ℤ, Random.floatBetween (.num 0) (.num 100) 1 (1 / 2)
        = .ok (.num ((k : ℚ) / 10)) ∧ 0 ≤ k ∧ k ≤ 1000 :=
  floatBetween_draw_range (1 / 2) (by norm_num) (by norm_num)
